import Mathlib

/-!
Verification development for the Speechmatics transcription MCP server
(`server.py`, `transcriber.py`, `utils.py`).

Python strings are modelled as `List Char` (called `PyStr` below); Python
floats are modelled as `ℚ` (the operations involved — division, floor
division, modulo with these magnitudes — are exact); Python `None` is
modelled with `Option`.
-/

/-- PyStr models a Python `str` as its sequence of characters. -/
abbrev PyStr := List Char

/-- Whitespace characters stripped by Python `str.strip()` (ASCII range,
which is all that occurs in the formats at hand). -/
def isPySpace (c : Char) : Bool :=
  c = ' ' || c = '\t' || c = '\n' || c = '\r' || c = '\x0b' || c = '\x0c'

/-- Model of Python `s.strip()`: drop leading and trailing whitespace. -/
def pyStrip (s : PyStr) : PyStr :=
  ((s.dropWhile isPySpace).reverse.dropWhile isPySpace).reverse

/-- Model of Python `s.split(sep)` for a one-character separator:
splits at every occurrence, keeping empty pieces (`"".split(sep) = [""]`). -/
def pySplit (sep : Char) : PyStr → List PyStr
  | [] => [[]]
  | c :: rest =>
    if c = sep then [] :: pySplit sep rest
    else
      match pySplit sep rest with
      | [] => [[c]]
      | h :: t => (c :: h) :: t

/-- Model of Python `sep.join(pieces)` for a one-character separator. -/
def pyJoin (sep : Char) : List PyStr → PyStr
  | [] => []
  | [l] => l
  | l :: l2 :: ls => l ++ sep :: pyJoin sep (l2 :: ls)

/-- Model of Python `line.split(":", 1)[1]`: everything after the first
colon (the callers guarantee a colon is present). -/
def dropThroughColon : PyStr → PyStr
  | [] => []
  | c :: r => if c = ':' then r else dropThroughColon r

/-- Decimal digit character for `d < 10` (Python's rendering of one digit). -/
def digitChar : ℕ → Char
  | 0 => '0'
  | 1 => '1'
  | 2 => '2'
  | 3 => '3'
  | 4 => '4'
  | 5 => '5'
  | 6 => '6'
  | 7 => '7'
  | 8 => '8'
  | 9 => '9'
  | _ + 10 => '9'

/-- Fuel-driven core of `natChars`; the fuel only forces structural
recursion and never runs out when `n < fuel`. -/
def natCharsAux : ℕ → ℕ → PyStr
  | 0, _ => []
  | fuel + 1, n =>
    if n < 10 then [digitChar n]
    else natCharsAux fuel (n / 10) ++ [digitChar (n % 10)]

/-- Decimal rendering of a natural number, most significant digit first:
Python's `f"{n}"` for a non-negative int. -/
def natChars (n : ℕ) : PyStr := natCharsAux (n + 1) n

theorem natCharsAux_congr : ∀ f1 f2 n : ℕ, n < f1 → n < f2 →
    natCharsAux f1 n = natCharsAux f2 n := by
  intro f1
  induction f1 with
  | zero => intro f2 n h1 _; omega
  | succ f ih =>
    intro f2 n h1 h2
    cases f2 with
    | zero => omega
    | succ g =>
      simp only [natCharsAux]
      by_cases h : n < 10
      · simp [h]
      · have hd : n / 10 < n := Nat.div_lt_self (by omega) (by omega)
        simp only [if_neg h]
        rw [ih g (n / 10) (by omega) (by omega)]

/-- Recurrence satisfied by `natChars` (the shape of the source recursion). -/
theorem natChars_eq (n : ℕ) :
    natChars n = if n < 10 then [digitChar n]
                 else natChars (n / 10) ++ [digitChar (n % 10)] := by
  have h1 : natChars n = natCharsAux (n + 1) n := rfl
  by_cases h : n < 10
  · rw [h1]
    simp only [natCharsAux]
    rw [if_pos h, if_pos h]
  · have hd : n / 10 < n := Nat.div_lt_self (by omega) (by omega)
    have h2 : natChars (n / 10) = natCharsAux (n / 10 + 1) (n / 10) := rfl
    rw [h1]
    simp only [natCharsAux]
    rw [if_neg h, if_neg h, h2,
      natCharsAux_congr n (n / 10 + 1) (n / 10) (by omega) (by omega)]

/-- Python's `f"{n:02d}"` for `0 ≤ n < 100`: zero-pad to two digits. -/
def pad2 (n : ℕ) : PyStr :=
  if n < 10 then '0' :: natChars n else natChars n

/-- Python's `f"{i}"` for an int of either sign. -/
def intChars (i : ℤ) : PyStr :=
  if i < 0 then '-' :: natChars i.natAbs else natChars i.toNat

/-- Value of a non-empty all-digit string, as computed by Python `int()`
(sign and surrounding whitespace handled by `pyInt`). -/
def digitsVal (s : PyStr) : Option ℕ :=
  if s = [] then none
  else if s.all Char.isDigit then
    some (s.foldl (fun a c => a * 10 + (c.toNat - 48)) 0)
  else none

/-- Model of Python `int(s)`: strip whitespace, optional sign, decimal
digits; `none` models the `ValueError` raised on malformed input. -/
def pyInt (s : PyStr) : Option ℤ :=
  if pyStrip s = [] then none
  else if (pyStrip s).head? = some '-' then
    (digitsVal (pyStrip s).tail).map (fun n => -(n : ℤ))
  else if (pyStrip s).head? = some '+' then
    (digitsVal (pyStrip s).tail).map (fun n => (n : ℤ))
  else (digitsVal (pyStrip s)).map (fun n => (n : ℤ))

/-- Python float modulo `a % b`: the result has the sign of the divisor,
`a % b = a - b * ⌊a / b⌋`. -/
def pmod (a b : ℚ) : ℚ := a - b * ⌊a / b⌋

/-- Embedding of `utils.format_duration` (utils.py:56-64):
`hours = int(seconds // 3600)`, `minutes = int((seconds % 3600) // 60)`,
`secs = int(seconds % 60)`; returns `f"{hours}:{minutes:02d}:{secs:02d}"`
when `hours > 0` else `f"{minutes}:{secs:02d}"`.  The `int()` truncations
act on non-negative values (`%` has a positive divisor), so they are
floors. -/
def format_duration (seconds : ℚ) : PyStr :=
  if ⌊seconds / 3600⌋ > 0 then
    intChars ⌊seconds / 3600⌋ ++ ':' ::
      pad2 (⌊pmod seconds 3600 / 60⌋).toNat ++ ':' ::
        pad2 (⌊pmod seconds 60⌋).toNat
  else
    intChars ⌊pmod seconds 3600 / 60⌋ ++ ':' :: pad2 (⌊pmod seconds 60⌋).toNat

/-- Python's `f"{i}"` agrees with `natChars` on non-negative ints. -/
theorem intChars_natCast (n : ℕ) : intChars (n : ℤ) = natChars n := by
  unfold intChars
  rw [if_neg (by simp), Int.toNat_natCast]

/-- Floor of a cast quotient is Nat division. -/
theorem floor_natCast_div (s b : ℕ) :
    ⌊(s : ℚ) / (b : ℚ)⌋ = ((s / b : ℕ) : ℤ) :=
  Rat.floor_natCast_div_natCast s b

/-- Python float `%` on casts of naturals is Nat `%`. -/
theorem pmod_natCast (s b : ℕ) :
    pmod (s : ℚ) (b : ℚ) = ((s % b : ℕ) : ℚ) := by
  unfold pmod
  rw [floor_natCast_div, Int.cast_natCast]
  have hq : (b : ℚ) * ((s / b : ℕ) : ℚ) + ((s % b : ℕ) : ℚ) = (s : ℚ) := by
    exact_mod_cast congrArg (Nat.cast : ℕ → ℚ) (Nat.div_add_mod s b)
  linarith

/-- Specialisation of `format_duration` to whole non-negative seconds:
the components are exactly Nat integer division and modulo. -/
theorem format_duration_natCast (s : ℕ) :
    format_duration (s : ℚ) =
      if 0 < s / 3600 then
        natChars (s / 3600) ++ ':' :: pad2 (s % 3600 / 60) ++ ':' :: pad2 (s % 60)
      else
        natChars (s % 3600 / 60) ++ ':' :: pad2 (s % 60) := by
  unfold format_duration
  have c3600 : ((3600 : ℕ) : ℚ) = (3600 : ℚ) := by norm_num
  have c60 : ((60 : ℕ) : ℚ) = (60 : ℚ) := by norm_num
  rw [← c3600, ← c60, floor_natCast_div, pmod_natCast, pmod_natCast,
    floor_natCast_div]
  have hsec : ⌊((s % 60 : ℕ) : ℚ)⌋ = ((s % 60 : ℕ) : ℤ) := Int.floor_natCast _
  rw [hsec]
  by_cases h : 0 < s / 3600
  · rw [if_pos (by exact_mod_cast h), if_pos h, intChars_natCast,
      Int.toNat_natCast, Int.toNat_natCast]
  · rw [if_neg (by exact_mod_cast h), if_neg h, intChars_natCast,
      Int.toNat_natCast]

example : format_duration ((45 : ℕ) : ℚ) = "0:45".data := by
  rw [format_duration_natCast]; decide
example : format_duration ((125 : ℕ) : ℚ) = "2:05".data := by
  rw [format_duration_natCast]; decide
example : format_duration ((3725 : ℕ) : ℚ) = "1:02:05".data := by
  rw [format_duration_natCast]; decide

/-- Word-timing entry built by `SpeechmaticsTranscriber._extract_words`
(transcriber.py:149-154): the dict
`{"word": ..., "start": ..., "end": ..., "confidence": ...}`. -/
structure Word where
  word : String
  start : ℚ
  end_time : ℚ
  confidence : ℚ
deriving DecidableEq, Repr

/-- Embedding of the dataclass `TranscriptionResult` (transcriber.py:18-29). -/
structure TranscriptionResult where
  file_path : String
  transcript : String
  words : Option (List Word)
  duration_seconds : ℚ
  accuracy : String
  diarization : Bool
  status : String
  error_message : Option String := none
  job_id : Option String := none
deriving DecidableEq, Repr

/-- One alternative of a provider result item; `none` fields model absent
attributes (`getattr` defaults). -/
structure RAlternative where
  content : Option String
  confidence : Option ℚ
deriving DecidableEq, Repr

/-- One item of the provider result's `results` list. -/
structure RItem where
  type : Option String
  alternatives : List RAlternative
  start_time : Option ℚ
  end_time : Option ℚ
deriving DecidableEq, Repr

/-- What `client.submit_job` + `client.wait_for_completion` can produce for
one file: a terminal success payload, an `HTTPStatusError` (status code,
parsed JSON `detail` when available, `str(error)`), or any other raised
exception (its message). -/
inductive RemoteReply where
  | ok (job_id : String) (transcript_text : Option String)
      (results : Option (List RItem))
  | httpErr (status : ℕ) (json_detail : Option String) (err_str : String)
  | exn (msg : String)
deriving DecidableEq, Repr

/-- Environment a transcription runs against: which files exist on disk and
what the remote Speechmatics call yields per file path. -/
structure Env where
  file_exists : String → Bool
  remote : String → RemoteReply

/-- Extraction of one provider item (the body of the `_extract_words`
loop): an item contributes a word dict exactly when its `type` is
`"word"` and its `alternatives` list is non-empty; the dict is built from
`alternatives[0]` (`head?`). -/
def extract_one (item : RItem) : Option Word :=
  if item.type = some "word" then
    item.alternatives.head?.map (fun alt =>
      { word := alt.content.getD "",
        start := item.start_time.getD 0,
        end_time := item.end_time.getD 0,
        confidence := alt.confidence.getD 0 })
  else none

/-- Embedding of `SpeechmaticsTranscriber._extract_words`
(transcriber.py:137-156): keep items of type `"word"` with a non-empty
`alternatives` list; return `None` when nothing was kept or when the
payload has no `results` attribute (`return words if words else None`). -/
def extract_words (results : Option (List RItem)) : Option (List Word) :=
  match results with
  | none => none
  | some items =>
    if items.filterMap extract_one = [] then none
    else some (items.filterMap extract_one)

/-- Embedding of `SpeechmaticsTranscriber._handle_http_error`
(transcriber.py:158-175). -/
def handle_http_error (status : ℕ) (json_detail : Option String)
    (err_str : String) : String :=
  if status = 429 then
    "Rate limited by Speechmatics API. Please wait and try again."
  else if status = 403 then
    "API quota exceeded or invalid API key. Check your Speechmatics account."
  else if status = 401 then
    "Invalid Speechmatics API key."
  else if status = 400 then
    "Invalid request: " ++ (json_detail.getD err_str)
  else
    "API error (" ++ toString status ++ "): " ++ err_str

/-- Embedding of `SpeechmaticsTranscriber.transcribe` (transcriber.py:48-135).
Every branch — missing file, HTTP error, any other exception — returns a
`TranscriptionResult`; no exception escapes.  `duration_seconds or 0`
maps `None` to `0` (and leaves every other value unchanged, since `0.0 or 0`
is also `0`), which is `Option.getD 0`. -/
def transcribe_reply (file_path accuracy language : String)
    (duration_seconds : Option ℚ) (diarize : Bool) :
    RemoteReply → TranscriptionResult
  | RemoteReply.ok jid tt res =>
    { file_path := file_path, transcript := tt.getD "",
      words := extract_words res,
      duration_seconds := duration_seconds.getD 0, accuracy := accuracy,
      diarization := diarize, status := "success", job_id := some jid }
  | RemoteReply.httpErr st dj es =>
    { file_path := file_path, transcript := "", words := none,
      duration_seconds := duration_seconds.getD 0, accuracy := accuracy,
      diarization := diarize, status := "error",
      error_message := some (handle_http_error st dj es) }
  | RemoteReply.exn m =>
    { file_path := file_path, transcript := "", words := none,
      duration_seconds := duration_seconds.getD 0, accuracy := accuracy,
      diarization := diarize, status := "error",
      error_message := some m }

/-- Embedding of `SpeechmaticsTranscriber.transcribe` (transcriber.py:48-135):
the file-existence check followed by the remote call, with every outcome
(success, HTTP error, other exception) packaged by `transcribe_reply`. -/
def transcribe (env : Env) (file_path : String) (accuracy : String)
    (language : String) (duration_seconds : Option ℚ) (diarize : Bool) :
    TranscriptionResult :=
  if env.file_exists file_path = false then
    { file_path := file_path, transcript := "", words := none,
      duration_seconds := 0, accuracy := accuracy, diarization := diarize,
      status := "error",
      error_message := some ("File not found: " ++ file_path) }
  else
    transcribe_reply file_path accuracy language duration_seconds diarize
      (env.remote file_path)

/-- Embedding of `SpeechmaticsTranscriber.transcribe_batch`
(transcriber.py:177-223): `asyncio.gather(*tasks)` returns one result per
task, in task (= input) order; `max_concurrent` and `progress_callback`
only affect timing and side effects, not the returned list. -/
def transcribe_batch (env : Env) (files : List (String × ℚ))
    (accuracy : String) (language : String) (diarize : Bool) :
    List TranscriptionResult :=
  files.map (fun fd => transcribe env fd.1 accuracy language (some fd.2) diarize)

/-- Concurrency model for `asyncio.gather`: tasks finish in an arbitrary
completion order; each completed task deposits its result in its own slot
(slot `i` for the `i`-th task).  The output is the slot list. -/
def run_completion_order (tasks : List TranscriptionResult)
    (order : List ℕ) : List (Option TranscriptionResult) :=
  order.foldl (fun slots i => slots.set i tasks[i]?)
    (List.replicate tasks.length none)

/-- One remote job summary as seen by `get_usage`.  `created_at` is `none`
when the attribute is missing or falsy, `some none` when parsing it raised
`ValueError`/`TypeError`, and `some (some t)` when it parsed to the
naive-UTC timestamp `t`. -/
structure UsageJob where
  created_at : Option (Option ℚ)
  duration : Option ℚ
deriving DecidableEq, Repr

/-- Embedding of the usage aggregation loop of
`SpeechmaticsTranscriber.get_usage` (transcriber.py:240-258), returning
`(jobs_this_month, total_duration_seconds)`.  `month_start` is the first
instant of the current UTC month computed from `utcnow()`;
`getattr(job, 'duration', 0) or 0` is `Option.getD 0`. -/
def usage_step (month_start : ℚ) (duration : ℚ) (acc : ℕ × ℚ) :
    Option (Option ℚ) → ℕ × ℚ
  | some (some t) =>
    if month_start ≤ t then (acc.1 + 1, acc.2 + duration) else acc
  | _ => acc

def get_usage (jobs : List UsageJob) (month_start : ℚ) : ℕ × ℚ :=
  jobs.foldl (fun acc job =>
    usage_step month_start (job.duration.getD 0) acc job.created_at) (0, 0)

/-- Embedding of the result-processing loop of `handle_transcribe_directory`
(server.py:303-328), returning
`(files_processed, files_failed, total_duration_seconds)`. -/
def aggregate_results (results : List TranscriptionResult) : ℕ × ℕ × ℚ :=
  results.foldl (fun acc r =>
    if r.status = "success" then (acc.1 + 1, acc.2.1, acc.2.2 + r.duration_seconds)
    else (acc.1, acc.2.1 + 1, acc.2.2)) (0, 0, 0)

/-- Embedding of the plain-text branch of `write_transcript_file`
(server.py:69-79): four `# `-header lines, a blank line, then the
transcript.  `timestamp` is `datetime.now(timezone.utc).isoformat()` and
`source_name` is `Path(result.file_path).name`; neither contains a
newline.  `format_duration(...) if result.duration_seconds else "unknown"`
tests Python truthiness, i.e. `duration_seconds ≠ 0`. -/
def write_transcript_text (timestamp source_name : String)
    (r : TranscriptionResult) : PyStr :=
  "# Transcribed: ".data ++ timestamp.data ++ '\n' ::
    ("# Source: ".data ++ source_name.data ++ '\n' ::
      ("# Duration: ".data ++
          (if r.duration_seconds = 0 then "unknown".data
           else format_duration r.duration_seconds) ++ '\n' ::
        ("# Accuracy: ".data ++ r.accuracy.data ++ '\n' :: '\n' ::
          r.transcript.data)))

/-- JSON document written by the `with_timestamps=True` branch of
`write_transcript_file` (server.py:55-68).  `json.dump` followed by
`json.loads` on this dict of strings, numbers and word dicts is the
identity, so the file is modelled by its parsed structure. -/
structure TranscriptJson where
  source : String
  transcribed_at : String
  duration_seconds : ℚ
  accuracy : String
  transcript : String
  words : List Word
deriving DecidableEq, Repr

/-- Embedding of the JSON branch of `write_transcript_file`
(server.py:55-68): `"words": result.words or []` writes an empty array
when `words` is `None`. -/
def write_transcript_json (timestamp source_name : String)
    (r : TranscriptionResult) : TranscriptJson :=
  { source := source_name, transcribed_at := timestamp,
    duration_seconds := r.duration_seconds, accuracy := r.accuracy,
    transcript := r.transcript, words := r.words.getD [] }

/-- Successful response of `handle_get_transcript` for a `.json` transcript
(server.py:375-384). -/
structure JsonReadResult where
  transcript : String
  duration_seconds : Option ℚ
  has_timestamps : Bool
  word_count : ℕ
deriving DecidableEq, Repr

/-- Embedding of the `.json` branch of `handle_get_transcript`
(server.py:375-384). -/
def read_transcript_json (data : TranscriptJson) : JsonReadResult :=
  { transcript := data.transcript,
    duration_seconds := some data.duration_seconds,
    has_timestamps := true,
    word_count := data.words.length }

/-- Loop of server.py:387-394: everything after the first blank line. -/
def linesAfterBlank : List PyStr → List PyStr
  | [] => []
  | l :: rest => if l = [] then rest else linesAfterBlank rest

/-- Embedding of the duration-header scan of `handle_get_transcript`
(server.py:398-409) over `lines[:5]`: at the first line starting with
`"# Duration:"`, take the text after the first colon, strip it, split on
`":"`, and convert the two or three fields with `int()`; `Except.error`
models the `ValueError` raised by `int()` on a malformed field (which
makes the whole read fail), while a field count other than 2 or 3 leaves
the duration `None`. -/
def exceptOfOption : Option ℤ → Except Unit (Option ℤ)
  | some v => Except.ok (some v)
  | none => Except.error ()

/-- Conversion of the split duration fields (server.py:404-408):
`int()` each field; with 2 fields the value is `M*60+S`, with 3 fields
`H*3600+M*60+S`; an `int()` failure is the exception, any other field
count leaves the duration `None`. -/
def parse_fields : List PyStr → Except Unit (Option ℤ)
  | [a, b] =>
    exceptOfOption ((pyInt a).bind (fun x => (pyInt b).map (fun y => x * 60 + y)))
  | [a, b, c] =>
    exceptOfOption ((pyInt a).bind (fun x => (pyInt b).bind (fun y =>
      (pyInt c).map (fun z => x * 3600 + y * 60 + z))))
  | _ => Except.ok none

def parse_duration_lines : List PyStr → Except Unit (Option ℤ)
  | [] => Except.ok none
  | l :: rest =>
    if "# Duration:".data.isPrefixOf l then
      parse_fields (pySplit ':' (pyStrip (dropThroughColon l)))
    else parse_duration_lines rest

/-- Embedding of the plain-text branch of `handle_get_transcript`
(server.py:386-417): split the file on newlines, join and strip everything
after the first blank line as the transcript, and scan the first five
lines for a `# Duration:` header.  `none` models the exception path (the
tool then reports "Failed to read transcript"). -/
def read_result (transcript : PyStr) :
    Except Unit (Option ℤ) → Option (PyStr × Option ℤ)
  | Except.error _ => none
  | Except.ok dur => some (transcript, dur)

def read_transcript_text (content : PyStr) : Option (PyStr × Option ℤ) :=
  read_result (pyStrip (pyJoin '\n' (linesAfterBlank (pySplit '\n' content))))
    (parse_duration_lines ((pySplit '\n' content).take 5))

def exceptValue : Except Unit (Option ℤ) → Option ℤ
  | Except.ok v => v
  | Except.error _ => none

/-- Claim C4's "formatted and reparsed" duration: parse a `M:SS` or
`H:MM:SS` string back to whole seconds, exactly as the reader's header
scan converts it. -/
def reparse_duration (ds : PyStr) : Option ℤ :=
  exceptValue (parse_fields (pySplit ':' ds))

theorem pySplit_ne_nil (sep : Char) (s : PyStr) : pySplit sep s ≠ [] := by
  cases s with
  | nil => simp [pySplit]
  | cons c rest =>
    by_cases hc : c = sep
    · simp [pySplit, hc]
    · simp only [pySplit, if_neg hc]
      cases h : pySplit sep rest with
      | nil => simp
      | cons hd tl => simp

theorem pyJoin_pySplit (sep : Char) (s : PyStr) :
    pyJoin sep (pySplit sep s) = s := by
  induction s with
  | nil => rfl
  | cons c rest ih =>
    by_cases hc : c = sep
    · simp only [pySplit, if_pos hc]
      cases h : pySplit sep rest with
      | nil => exact absurd h (pySplit_ne_nil sep rest)
      | cons hd tl =>
        rw [h] at ih
        simp only [pyJoin, List.nil_append]
        rw [ih, hc]
    · simp only [pySplit, if_neg hc]
      cases h : pySplit sep rest with
      | nil => exact absurd h (pySplit_ne_nil sep rest)
      | cons hd tl =>
        rw [h] at ih
        cases tl with
        | nil => simp only [pyJoin] at ih ⊢; rw [ih]
        | cons t2 ts =>
          simp only [pyJoin] at ih ⊢
          rw [List.cons_append, ih]

theorem pySplit_sep_free (sep : Char) (a : PyStr) (h : sep ∉ a) :
    pySplit sep a = [a] := by
  induction a with
  | nil => rfl
  | cons c rest ih =>
    have hc : c ≠ sep := fun hc => h (hc ▸ List.mem_cons_self c rest)
    have hrest : sep ∉ rest := fun hr => h (List.mem_cons_of_mem c hr)
    simp only [pySplit, if_neg hc, ih hrest]

theorem pySplit_append (sep : Char) (a b : PyStr) (h : sep ∉ a) :
    pySplit sep (a ++ sep :: b) = a :: pySplit sep b := by
  induction a with
  | nil => simp [pySplit]
  | cons c rest ih =>
    have hc : c ≠ sep := fun hc => h (hc ▸ List.mem_cons_self c rest)
    have hrest : sep ∉ rest := fun hr => h (List.mem_cons_of_mem c hr)
    simp only [List.cons_append, pySplit, if_neg hc, List.append_eq]
    rw [ih hrest]

theorem dropWhile_eq_self_of (p : Char → Bool) (s : PyStr)
    (h : ∀ c ∈ s, p c = false) : s.dropWhile p = s := by
  cases s with
  | nil => rfl
  | cons c rest =>
    rw [List.dropWhile_cons, h c (List.mem_cons_self c rest)]
    simp

theorem pyStrip_eq_self (s : PyStr) (h : ∀ c ∈ s, isPySpace c = false) :
    pyStrip s = s := by
  unfold pyStrip
  rw [dropWhile_eq_self_of _ _ h,
    dropWhile_eq_self_of _ _ (fun c hc => h c (List.mem_reverse.mp hc)),
    List.reverse_reverse]

theorem pyStrip_cons_space (s : PyStr) : pyStrip (' ' :: s) = pyStrip s := by
  unfold pyStrip
  rw [List.dropWhile_cons]
  simp [isPySpace]

/-- Character classes a rendered digit belongs to (everything the format
and parse proofs need about a digit character). -/
abbrev goodDigit (c : Char) : Prop :=
  c.isDigit = true ∧ isPySpace c = false ∧ c ≠ ':' ∧ c ≠ '\n' ∧
    c ≠ '-' ∧ c ≠ '+'

theorem digitChar_good (d : ℕ) : goodDigit (digitChar d) := by
  unfold digitChar goodDigit
  split <;> exact (by decide)

theorem digitChar_val (d : ℕ) (h : d < 10) : (digitChar d).toNat - 48 = d := by
  unfold digitChar
  split
  · decide
  · decide
  · decide
  · decide
  · decide
  · decide
  · decide
  · decide
  · decide
  · decide
  · omega

theorem natChars_good (n : ℕ) : ∀ c ∈ natChars n, goodDigit c := by
  induction n using Nat.strong_induction_on with
  | _ n ih =>
    rw [natChars_eq]
    by_cases h : n < 10
    · rw [if_pos h]
      intro c hc
      rw [List.mem_singleton] at hc
      exact hc ▸ digitChar_good n
    · rw [if_neg h]
      intro c hc
      rcases List.mem_append.mp hc with h1 | h2
      · exact ih (n / 10) (Nat.div_lt_self (by omega) (by omega)) c h1
      · rw [List.mem_singleton] at h2
        exact h2 ▸ digitChar_good (n % 10)

theorem natChars_ne_nil (n : ℕ) : natChars n ≠ [] := by
  rw [natChars_eq]
  by_cases h : n < 10
  · rw [if_pos h]; simp
  · rw [if_neg h]; simp

theorem natChars_foldl (n : ℕ) :
    (natChars n).foldl (fun a c => a * 10 + (c.toNat - 48)) 0 = n := by
  induction n using Nat.strong_induction_on with
  | _ n ih =>
    rw [natChars_eq]
    by_cases h : n < 10
    · rw [if_pos h]
      simp only [List.foldl_cons, List.foldl_nil]
      rw [digitChar_val n h]
      omega
    · rw [if_neg h]
      rw [List.foldl_append]
      rw [ih (n / 10) (Nat.div_lt_self (by omega) (by omega))]
      simp only [List.foldl_cons, List.foldl_nil]
      rw [digitChar_val (n % 10) (Nat.mod_lt n (by omega))]
      omega

theorem natChars_all_digit (n : ℕ) : (natChars n).all Char.isDigit = true := by
  rw [List.all_eq_true]
  intro c hc
  exact (natChars_good n c hc).1

theorem digitsVal_natChars (n : ℕ) : digitsVal (natChars n) = some n := by
  unfold digitsVal
  rw [if_neg (natChars_ne_nil n), if_pos (natChars_all_digit n),
    natChars_foldl n]

theorem natChars_no_space (n : ℕ) : ∀ c ∈ natChars n, isPySpace c = false :=
  fun c hc => (natChars_good n c hc).2.1

theorem pyInt_natChars (n : ℕ) : pyInt (natChars n) = some (n : ℤ) := by
  unfold pyInt
  rw [pyStrip_eq_self _ (natChars_no_space n)]
  rw [if_neg (natChars_ne_nil n)]
  cases hn : natChars n with
  | nil => exact absurd hn (natChars_ne_nil n)
  | cons c t =>
    have hg : goodDigit c :=
      natChars_good n c (hn ▸ List.mem_cons_self c t)
    simp only [List.head?_cons]
    rw [if_neg (fun hh => hg.2.2.2.2.1 (Option.some.inj hh)),
      if_neg (fun hh => hg.2.2.2.2.2 (Option.some.inj hh)),
      ← hn, digitsVal_natChars n]
    rfl

theorem pad2_good (n : ℕ) : ∀ c ∈ pad2 n, goodDigit c := by
  unfold pad2
  by_cases h : n < 10
  · rw [if_pos h]
    intro c hc
    rcases List.mem_cons.mp hc with h1 | h2
    · exact h1 ▸ (by decide : goodDigit '0')
    · exact natChars_good n c h2
  · rw [if_neg h]
    exact natChars_good n

theorem pad2_no_space (n : ℕ) : ∀ c ∈ pad2 n, isPySpace c = false :=
  fun c hc => (pad2_good n c hc).2.1

theorem digitsVal_zero_cons (s : PyStr) (hs : s.all Char.isDigit = true) :
    digitsVal ('0' :: s) =
      some (s.foldl (fun a c => a * 10 + (c.toNat - 48)) 0) := by
  unfold digitsVal
  rw [if_neg (by simp), if_pos (by
    simp only [List.all_cons, Bool.and_eq_true]
    exact ⟨by decide, hs⟩)]
  simp only [List.foldl_cons]
  have h0 : 0 * 10 + ('0'.toNat - 48) = 0 := by decide
  rw [h0]

theorem pyInt_pad2 (n : ℕ) : pyInt (pad2 n) = some (n : ℤ) := by
  by_cases h : n < 10
  · have hpad : pad2 n = '0' :: natChars n := by unfold pad2; rw [if_pos h]
    unfold pyInt
    rw [pyStrip_eq_self _ (pad2_no_space n), hpad]
    rw [if_neg (by simp)]
    simp only [List.head?_cons, List.tail_cons]
    rw [if_neg (by decide), if_neg (by decide)]
    rw [digitsVal_zero_cons _ (natChars_all_digit n), natChars_foldl n]
    rfl
  · have hpad : pad2 n = natChars n := by unfold pad2; rw [if_neg h]
    rw [hpad]
    exact pyInt_natChars n

theorem pmod_nonneg_lt (a b : ℚ) (hb : 0 < b) :
    0 ≤ pmod a b ∧ pmod a b < b := by
  have hf : pmod a b = b * Int.fract (a / b) := by
    unfold pmod Int.fract
    field_simp
  constructor
  · rw [hf]
    exact mul_nonneg hb.le (Int.fract_nonneg _)
  · rw [hf]
    calc b * Int.fract (a / b) < b * 1 :=
          mul_lt_mul_of_pos_left (Int.fract_lt_one _) hb
    _ = b := mul_one b

theorem minutes_floor_nonneg (d : ℚ) : 0 ≤ ⌊pmod d 3600 / 60⌋ :=
  Int.floor_nonneg.mpr
    (div_nonneg (pmod_nonneg_lt d 3600 (by norm_num)).1 (by norm_num))

theorem secs_floor_nonneg (d : ℚ) : 0 ≤ ⌊pmod d 60⌋ :=
  Int.floor_nonneg.mpr (pmod_nonneg_lt d 60 (by norm_num)).1

theorem format_duration_pos (d : ℚ) (h : 0 < ⌊d / 3600⌋) :
    format_duration d =
      natChars (⌊d / 3600⌋).toNat ++ ':' ::
        (pad2 (⌊pmod d 3600 / 60⌋).toNat ++ ':' ::
          pad2 (⌊pmod d 60⌋).toNat) := by
  unfold format_duration
  rw [if_pos h]
  unfold intChars
  rw [if_neg (by omega)]
  simp [List.append_assoc]

theorem format_duration_nonpos (d : ℚ) (h : ¬ 0 < ⌊d / 3600⌋) :
    format_duration d =
      natChars (⌊pmod d 3600 / 60⌋).toNat ++ ':' ::
        pad2 (⌊pmod d 60⌋).toNat := by
  unfold format_duration
  rw [if_neg h]
  unfold intChars
  rw [if_neg (by have := minutes_floor_nonneg d; omega)]

theorem format_duration_no_space (d : ℚ) :
    ∀ c ∈ format_duration d, isPySpace c = false := by
  intro c hc
  by_cases h : 0 < ⌊d / 3600⌋
  · rw [format_duration_pos d h] at hc
    rcases List.mem_append.mp hc with h1 | h2
    · exact (natChars_good _ c h1).2.1
    · rcases List.mem_cons.mp h2 with h0 | h3
      · rw [h0]; decide
      · rcases List.mem_append.mp h3 with h4 | h5
        · exact (pad2_good _ c h4).2.1
        · rcases List.mem_cons.mp h5 with h0 | h6
          · rw [h0]; decide
          · exact (pad2_good _ c h6).2.1

  · rw [format_duration_nonpos d h] at hc
    rcases List.mem_append.mp hc with h1 | h2
    · exact (natChars_good _ c h1).2.1
    · rcases List.mem_cons.mp h2 with h0 | h3
      · rw [h0]; decide
      · exact (pad2_good _ c h3).2.1

theorem format_duration_no_newline (d : ℚ) : '\n' ∉ format_duration d := by
  intro hm
  have hs := format_duration_no_space d '\n' hm
  simp [isPySpace] at hs

theorem pySplit_format_pos (d : ℚ) (h : 0 < ⌊d / 3600⌋) :
    pySplit ':' (format_duration d) =
      [natChars (⌊d / 3600⌋).toNat, pad2 (⌊pmod d 3600 / 60⌋).toNat,
        pad2 (⌊pmod d 60⌋).toNat] := by
  rw [format_duration_pos d h]
  have hA : ':' ∉ natChars (⌊d / 3600⌋).toNat :=
    fun hm => (natChars_good _ _ hm).2.2.1 rfl
  have hB : ':' ∉ pad2 (⌊pmod d 3600 / 60⌋).toNat :=
    fun hm => (pad2_good _ _ hm).2.2.1 rfl
  have hC : ':' ∉ pad2 (⌊pmod d 60⌋).toNat :=
    fun hm => (pad2_good _ _ hm).2.2.1 rfl
  rw [pySplit_append ':' _ _ hA, pySplit_append ':' _ _ hB,
    pySplit_sep_free ':' _ hC]

theorem pySplit_format_nonpos (d : ℚ) (h : ¬ 0 < ⌊d / 3600⌋) :
    pySplit ':' (format_duration d) =
      [natChars (⌊pmod d 3600 / 60⌋).toNat, pad2 (⌊pmod d 60⌋).toNat] := by
  rw [format_duration_nonpos d h]
  have hA : ':' ∉ natChars (⌊pmod d 3600 / 60⌋).toNat :=
    fun hm => (natChars_good _ _ hm).2.2.1 rfl
  have hB : ':' ∉ pad2 (⌊pmod d 60⌋).toNat :=
    fun hm => (pad2_good _ _ hm).2.2.1 rfl
  rw [pySplit_append ':' _ _ hA, pySplit_sep_free ':' _ hB]

theorem parse_fields_format (d : ℚ) :
    parse_fields (pySplit ':' (format_duration d)) =
      Except.ok (some (if 0 < ⌊d / 3600⌋ then
        ⌊d / 3600⌋ * 3600 + ⌊pmod d 3600 / 60⌋ * 60 + ⌊pmod d 60⌋
      else ⌊pmod d 3600 / 60⌋ * 60 + ⌊pmod d 60⌋)) := by
  by_cases h : 0 < ⌊d / 3600⌋
  · rw [pySplit_format_pos d h, if_pos h]
    simp [parse_fields, pyInt_natChars, pyInt_pad2, exceptOfOption,
      Int.toNat_of_nonneg h.le,
      Int.toNat_of_nonneg (minutes_floor_nonneg d),
      Int.toNat_of_nonneg (secs_floor_nonneg d)]
  · rw [pySplit_format_nonpos d h, if_neg h]
    simp [parse_fields, pyInt_natChars, pyInt_pad2, exceptOfOption,
      Int.toNat_of_nonneg (minutes_floor_nonneg d),
      Int.toNat_of_nonneg (secs_floor_nonneg d)]

theorem floor_pmod_sixty (d : ℚ) : ⌊pmod d 60⌋ = ⌊d⌋ - 60 * ⌊d / 60⌋ := by
  unfold pmod
  have hc : (60 : ℚ) * (⌊d / 60⌋ : ℚ) = ((60 * ⌊d / 60⌋ : ℤ) : ℚ) := by
    push_cast
    ring
  rw [hc, Int.floor_sub_int]

theorem floor_pmod_minutes (d : ℚ) :
    ⌊pmod d 3600 / 60⌋ = ⌊d / 60⌋ - 60 * ⌊d / 3600⌋ := by
  have hc : pmod d 3600 / 60 = d / 60 - ((60 * ⌊d / 3600⌋ : ℤ) : ℚ) := by
    unfold pmod
    push_cast
    ring
  rw [hc, Int.floor_sub_int]

/-- Reparsing the formatted duration of a positive number of seconds gives
back its floor (whole seconds). -/
theorem reparse_format_floor (d : ℚ) (hd : 0 < d) :
    reparse_duration (format_duration d) = some ⌊d⌋ := by
  unfold reparse_duration
  rw [parse_fields_format d]
  have hm := floor_pmod_minutes d
  have hs := floor_pmod_sixty d
  by_cases h : 0 < ⌊d / 3600⌋
  · rw [if_pos h]
    simp only [exceptValue, Option.some.injEq]
    rw [hm, hs]
    ring
  · rw [if_neg h]
    simp only [exceptValue, Option.some.injEq]
    rw [hm, hs]
    have h0 : ⌊d / 3600⌋ = 0 := by
      have hnn : 0 ≤ ⌊d / 3600⌋ :=
        Int.floor_nonneg.mpr (by positivity)
      omega
    rw [h0]
    ring

theorem isPrefixOf_transcribed (x : PyStr) :
    "# Duration:".data.isPrefixOf ("# Transcribed: ".data ++ x) = false := rfl

theorem isPrefixOf_source (x : PyStr) :
    "# Duration:".data.isPrefixOf ("# Source: ".data ++ x) = false := rfl

theorem isPrefixOf_duration (x : PyStr) :
    "# Duration:".data.isPrefixOf ("# Duration: ".data ++ x) = true := rfl

theorem dropThroughColon_duration (x : PyStr) :
    dropThroughColon ("# Duration: ".data ++ x) = ' ' :: x := rfl

theorem not_mem_append (c : Char) (a b : PyStr) (ha : c ∉ a) (hb : c ∉ b) :
    c ∉ a ++ b :=
  fun h => (List.mem_append.mp h).elim ha hb

theorem lit_append_ne_nil (a x : PyStr) (ha : a ≠ []) : a ++ x ≠ [] :=
  fun h => ha (List.append_eq_nil.mp h).1

theorem pySplit_cons_sep (sep : Char) (b : PyStr) :
    pySplit sep (sep :: b) = [] :: pySplit sep b := by
  simp [pySplit]

theorem linesAfterBlank_header (l0 l1 l2 l3 : PyStr) (rest : List PyStr)
    (h0 : l0 ≠ []) (h1 : l1 ≠ []) (h2 : l2 ≠ []) (h3 : l3 ≠ []) :
    linesAfterBlank (l0 :: l1 :: l2 :: l3 :: [] :: rest) = rest := by
  simp only [linesAfterBlank, if_neg h0, if_neg h1, if_neg h2, if_neg h3]
  simp

/-- Splitting the written plain-text transcript file on newlines yields the
four header lines, the blank line, and the transcript's own lines. -/
theorem pySplit_write_text (timestamp source_name : String)
    (r : TranscriptionResult)
    (hts : '\n' ∉ timestamp.data) (hsrc : '\n' ∉ source_name.data)
    (hacc : '\n' ∉ r.accuracy.data) :
    pySplit '\n' (write_transcript_text timestamp source_name r) =
      ("# Transcribed: ".data ++ timestamp.data) ::
        ("# Source: ".data ++ source_name.data) ::
          ("# Duration: ".data ++
              (if r.duration_seconds = 0 then "unknown".data
               else format_duration r.duration_seconds)) ::
            ("# Accuracy: ".data ++ r.accuracy.data) ::
              [] :: pySplit '\n' r.transcript.data := by
  have hdur : '\n' ∉ (if r.duration_seconds = 0 then "unknown".data
      else format_duration r.duration_seconds) := by
    by_cases h : r.duration_seconds = 0
    · rw [if_pos h]; decide
    · rw [if_neg h]; exact format_duration_no_newline r.duration_seconds
  unfold write_transcript_text
  rw [pySplit_append '\n' ("# Transcribed: ".data ++ timestamp.data) _
      (not_mem_append _ _ _ (by decide) hts),
    pySplit_append '\n' ("# Source: ".data ++ source_name.data) _
      (not_mem_append _ _ _ (by decide) hsrc),
    pySplit_append '\n' ("# Duration: ".data ++ _) _
      (not_mem_append _ _ _ (by decide) hdur),
    pySplit_append '\n' ("# Accuracy: ".data ++ r.accuracy.data) _
      (not_mem_append _ _ _ (by decide) hacc),
    pySplit_cons_sep]

theorem parse_duration_lines_skip (l : PyStr) (rest : List PyStr)
    (h : "# Duration:".data.isPrefixOf l = false) :
    parse_duration_lines (l :: rest) = parse_duration_lines rest := by
  simp [parse_duration_lines, h]

theorem parse_duration_lines_hit (l : PyStr) (rest : List PyStr)
    (h : "# Duration:".data.isPrefixOf l = true) :
    parse_duration_lines (l :: rest) =
      parse_fields (pySplit ':' (pyStrip (dropThroughColon l))) := by
  simp [parse_duration_lines, h]

/-- Scanning the five header-area lines for `# Duration:` finds the third
line and hands its stripped value to the field parser. -/
theorem parse_write_header (ts src acc dur : PyStr) :
    parse_duration_lines [("# Transcribed: ".data ++ ts),
      ("# Source: ".data ++ src), ("# Duration: ".data ++ dur),
      ("# Accuracy: ".data ++ acc), []] =
      parse_fields (pySplit ':' (pyStrip dur)) := by
  rw [parse_duration_lines_skip _ _ (isPrefixOf_transcribed ts),
    parse_duration_lines_skip _ _ (isPrefixOf_source src),
    parse_duration_lines_hit _ _ (isPrefixOf_duration dur),
    dropThroughColon_duration, pyStrip_cons_space]

/-- Reading back a written plain-text transcript: the transcript is the
stripped original and the duration is whatever the field parser makes of
the written duration string. -/
theorem read_write_text (timestamp source_name : String)
    (r : TranscriptionResult)
    (hts : '\n' ∉ timestamp.data) (hsrc : '\n' ∉ source_name.data)
    (hacc : '\n' ∉ r.accuracy.data) :
    read_transcript_text (write_transcript_text timestamp source_name r) =
      read_result (pyStrip r.transcript.data)
        (parse_fields (pySplit ':' (pyStrip
          (if r.duration_seconds = 0 then "unknown".data
           else format_duration r.duration_seconds)))) := by
  unfold read_transcript_text
  rw [pySplit_write_text timestamp source_name r hts hsrc hacc]
  have hne0 : ("# Transcribed: ".data ++ timestamp.data) ≠ [] :=
    lit_append_ne_nil _ _ (by decide)
  have hne1 : ("# Source: ".data ++ source_name.data) ≠ [] :=
    lit_append_ne_nil _ _ (by decide)
  have hne2 : ("# Duration: ".data ++
      (if r.duration_seconds = 0 then "unknown".data
       else format_duration r.duration_seconds)) ≠ [] :=
    lit_append_ne_nil _ _ (by decide)
  have hne3 : ("# Accuracy: ".data ++ r.accuracy.data) ≠ [] :=
    lit_append_ne_nil _ _ (by decide)
  rw [linesAfterBlank_header _ _ _ _ _ hne0 hne1 hne2 hne3, pyJoin_pySplit]
  have ht : (("# Transcribed: ".data ++ timestamp.data) ::
      ("# Source: ".data ++ source_name.data) ::
        ("# Duration: ".data ++
            (if r.duration_seconds = 0 then "unknown".data
             else format_duration r.duration_seconds)) ::
          ("# Accuracy: ".data ++ r.accuracy.data) ::
            [] :: pySplit '\n' r.transcript.data).take 5 =
      [("# Transcribed: ".data ++ timestamp.data),
        ("# Source: ".data ++ source_name.data),
        ("# Duration: ".data ++
            (if r.duration_seconds = 0 then "unknown".data
             else format_duration r.duration_seconds)),
        ("# Accuracy: ".data ++ r.accuracy.data), []] := rfl
  rw [ht, parse_write_header]

/-- C3: for every non-negative whole number of seconds `s`,
`format_duration s` is `H:MM:SS` when the hour component `s / 3600` is
positive and `M:SS` otherwise, with the `MM`/`SS` fields zero-padded to two
digits and every component computed by integer division/modulo; in
particular 45 ↦ "0:45", 125 ↦ "2:05", 3725 ↦ "1:02:05". -/
theorem claim_C3_format_duration (s : ℕ) :
    format_duration ((s : ℕ) : ℚ) =
      (if 0 < s / 3600 then
        natChars (s / 3600) ++ ':' :: pad2 (s % 3600 / 60) ++ ':' ::
          pad2 (s % 60)
      else natChars (s % 3600 / 60) ++ ':' :: pad2 (s % 60)) ∧
    format_duration ((45 : ℕ) : ℚ) = "0:45".data ∧
    format_duration ((125 : ℕ) : ℚ) = "2:05".data ∧
    format_duration ((3725 : ℕ) : ℚ) = "1:02:05".data :=
  ⟨format_duration_natCast s,
    by rw [format_duration_natCast]; decide,
    by rw [format_duration_natCast]; decide,
    by rw [format_duration_natCast]; decide⟩

/-- Sample Success outcome used by the C4 and C10 concrete instances. -/
def sampleSuccess (d : ℚ) : TranscriptionResult :=
  { file_path := "a.mp3", transcript := "hello", words := none,
    duration_seconds := d, accuracy := "standard", diarization := false,
    status := "success" }

/-- C4 counterexample: for a Success outcome with `durationSeconds = 0`,
the text-format round trip reads back duration `None`, while the claim's
"formatted and reparsed" value is `some 0` — so the claim fails at
duration 0 (the writer emits `# Duration: unknown` for a falsy duration). -/
theorem claim_C4_counterexample :
    read_transcript_text (write_transcript_text "T" "a.mp3"
        (sampleSuccess 0)) = some ("hello".data, none) ∧
    reparse_duration (format_duration ((0 : ℕ) : ℚ)) = some 0 ∧
    (none : Option ℤ) ≠ some 0 := by
  refine ⟨?_, ?_, by decide⟩
  · rw [read_write_text "T" "a.mp3" (sampleSuccess 0) (by decide) (by decide)
      (by decide)]
    have h0 : (sampleSuccess 0).duration_seconds = 0 := rfl
    rw [if_pos h0]
    decide
  · rw [format_duration_natCast]
    decide

/-- C4 (amended): for every Success outcome whose `durationSeconds` is
nonzero (Python-truthy), writing it in the plain-text format and reading
it back yields the original transcript after one leading/trailing
whitespace trim, and a duration equal to the written `H:MM:SS`/`M:SS`
string reparsed to whole seconds; for positive durations that reparsed
value is exactly `⌊durationSeconds⌋` (e.g. 125.0 → "2:05" → 125).  The
header fields (ISO timestamp, file name, accuracy) contain no newline. -/
theorem claim_C4_text_roundtrip (timestamp source_name : String)
    (r : TranscriptionResult)
    (hts : '\n' ∉ timestamp.data) (hsrc : '\n' ∉ source_name.data)
    (hacc : '\n' ∉ r.accuracy.data)
    (hstatus : r.status = "success")
    (hdur : r.duration_seconds ≠ 0) :
    read_transcript_text (write_transcript_text timestamp source_name r) =
      some (pyStrip r.transcript.data,
        reparse_duration (format_duration r.duration_seconds)) ∧
    (0 < r.duration_seconds →
      reparse_duration (format_duration r.duration_seconds) =
        some ⌊r.duration_seconds⌋) := by
  refine ⟨?_, fun hpos => reparse_format_floor _ hpos⟩
  rw [read_write_text timestamp source_name r hts hsrc hacc, if_neg hdur]
  unfold reparse_duration
  rw [pyStrip_eq_self _ (format_duration_no_space _), parse_fields_format]
  rfl

/-- C4 witness: concrete instance of the amended round trip at duration
125 seconds. -/
theorem claim_C4_text_roundtrip_witness :
    read_transcript_text (write_transcript_text "T" "a.mp3"
        (sampleSuccess 125)) =
      some (pyStrip (sampleSuccess 125).transcript.data,
        reparse_duration (format_duration
          (sampleSuccess 125).duration_seconds)) ∧
    (0 < (sampleSuccess 125).duration_seconds →
      reparse_duration (format_duration (sampleSuccess 125).duration_seconds) =
        some ⌊(sampleSuccess 125).duration_seconds⌋) :=
  claim_C4_text_roundtrip "T" "a.mp3" (sampleSuccess 125) (by decide)
    (by decide) (by decide) rfl (by norm_num [sampleSuccess])

/-- C10: writing an outcome with `durationSeconds = 0` (the only falsy
float) produces the header line `# Duration: unknown` and reads back
duration `None` (not 0); any nonzero duration is written as the formatted
time `# Duration: <formatted>`. -/
theorem claim_C10_zero_duration (timestamp source_name : String)
    (r : TranscriptionResult)
    (hts : '\n' ∉ timestamp.data) (hsrc : '\n' ∉ source_name.data)
    (hacc : '\n' ∉ r.accuracy.data) :
    (r.duration_seconds = 0 →
      (pySplit '\n' (write_transcript_text timestamp source_name r))[2]? =
        some ("# Duration: unknown".data) ∧
      read_transcript_text (write_transcript_text timestamp source_name r) =
        some (pyStrip r.transcript.data, none)) ∧
    (r.duration_seconds ≠ 0 →
      (pySplit '\n' (write_transcript_text timestamp source_name r))[2]? =
        some ("# Duration: ".data ++ format_duration r.duration_seconds)) := by
  constructor
  · intro h0
    constructor
    · rw [pySplit_write_text timestamp source_name r hts hsrc hacc, if_pos h0]
      rfl
    · rw [read_write_text timestamp source_name r hts hsrc hacc, if_pos h0]
      have hp : parse_fields (pySplit ':' (pyStrip "unknown".data)) =
          Except.ok none := rfl
      rw [hp]
      rfl
  · intro hne
    rw [pySplit_write_text timestamp source_name r hts hsrc hacc, if_neg hne]
    rfl

/-- C10 witness: concrete instance at duration 0 and at duration 125. -/
theorem claim_C10_zero_duration_witness :
    ((sampleSuccess 0).duration_seconds = 0 →
      (pySplit '\n' (write_transcript_text "T" "a.mp3" (sampleSuccess 0)))[2]? =
        some ("# Duration: unknown".data) ∧
      read_transcript_text (write_transcript_text "T" "a.mp3"
          (sampleSuccess 0)) =
        some (pyStrip (sampleSuccess 0).transcript.data, none)) ∧
    ((sampleSuccess 0).duration_seconds ≠ 0 →
      (pySplit '\n' (write_transcript_text "T" "a.mp3" (sampleSuccess 0)))[2]? =
        some ("# Duration: ".data ++
          format_duration (sampleSuccess 0).duration_seconds)) :=
  claim_C10_zero_duration "T" "a.mp3" (sampleSuccess 0) (by decide)
    (by decide) (by decide)

/-- Aggregation step of the `handle_transcribe_directory` result loop. -/
theorem aggregate_results_foldl (results : List TranscriptionResult) :
    ∀ (p f : ℕ) (d : ℚ),
      results.foldl (fun acc r =>
        if r.status = "success" then
          (acc.1 + 1, acc.2.1, acc.2.2 + r.duration_seconds)
        else (acc.1, acc.2.1 + 1, acc.2.2)) (p, f, d) =
      (p + (results.filter (fun r => r.status == "success")).length,
       f + (results.filter (fun r => !(r.status == "success"))).length,
       d + ((results.filter (fun r => r.status == "success")).map
         (fun r => r.duration_seconds)).sum) := by
  induction results with
  | nil => intro p f d; simp
  | cons r rest ih =>
    intro p f d
    simp only [List.foldl_cons]
    by_cases hr : r.status = "success"
    · rw [if_pos hr, ih]
      simp only [List.filter_cons, hr]
      simp [Prod.ext_iff]
      refine ⟨by omega, by ring⟩
    · rw [if_neg hr, ih]
      simp only [List.filter_cons]
      have hb : (r.status == "success") = false := by
        simp [hr]
      simp [hb, Prod.ext_iff]
      omega

/-- C1 counterexample input: a Failure outcome with recorded duration 5. -/
def failedOutcome : TranscriptionResult :=
  { file_path := "b.mp3", transcript := "", words := none,
    duration_seconds := 5, accuracy := "standard", diarization := false,
    status := "error", error_message := some "boom" }

/-- C1 counterexample: on a batch whose only outcome is a Failure with
duration 5, the report's `total_duration_seconds` is 0, while the sum of
`durationSeconds` over all outcomes is 5 — Failure outcomes do not
contribute, contradicting the claim. -/
theorem claim_C1_counterexample :
    (aggregate_results [failedOutcome]).2.2 = 0 ∧
    ([failedOutcome].map (fun r => r.duration_seconds)).sum = 5 ∧
    (0 : ℚ) ≠ 5 := by
  refine ⟨rfl, ?_, by norm_num⟩
  simp [failedOutcome]

/-- C1 (amended): `total_duration_seconds` is the sum of
`duration_seconds` over the Success outcomes only (and
`files_processed`/`files_failed` count the successes and failures). -/
theorem claim_C1_total_duration (results : List TranscriptionResult) :
    (aggregate_results results).2.2 =
      ((results.filter (fun r => r.status == "success")).map
        (fun r => r.duration_seconds)).sum ∧
    (aggregate_results results).1 =
      (results.filter (fun r => r.status == "success")).length ∧
    (aggregate_results results).2.1 =
      (results.filter (fun r => !(r.status == "success"))).length := by
  unfold aggregate_results
  rw [aggregate_results_foldl]
  simp

/-- C5: the JSON round trip always reads back `has_timestamps = true` and
a word count equal to the length of the outcome's words list (absent
words are written as the empty array); an outcome with no words reads
back with word count 0 — a successful read, not a failure. -/
theorem claim_C5_json_roundtrip (timestamp source_name : String)
    (r : TranscriptionResult) :
    (read_transcript_json (write_transcript_json timestamp source_name r)).has_timestamps
        = true ∧
    (read_transcript_json (write_transcript_json timestamp source_name r)).word_count
        = (r.words.getD []).length ∧
    (r.words = none →
      (write_transcript_json timestamp source_name r).words = [] ∧
      (read_transcript_json (write_transcript_json timestamp source_name r)).word_count
          = 0) := by
  refine ⟨rfl, rfl, fun hw => ?_⟩
  constructor
  · simp [write_transcript_json, hw]
  · simp [read_transcript_json, write_transcript_json, hw]

/-- C5 witness: concrete instance with `words = none`. -/
theorem claim_C5_json_roundtrip_witness :
    (read_transcript_json (write_transcript_json "T" "a.mp3"
        (sampleSuccess 0))).has_timestamps = true ∧
    (read_transcript_json (write_transcript_json "T" "a.mp3"
        (sampleSuccess 0))).word_count =
      ((sampleSuccess 0).words.getD []).length ∧
    ((sampleSuccess 0).words = none →
      (write_transcript_json "T" "a.mp3" (sampleSuccess 0)).words = [] ∧
      (read_transcript_json (write_transcript_json "T" "a.mp3"
          (sampleSuccess 0))).word_count = 0) :=
  claim_C5_json_roundtrip "T" "a.mp3" (sampleSuccess 0)

/-- Word dict built from a kept provider item (`alternatives[0]`); for a
kept item `alternatives` is non-empty, so the `getD` default is never
used. -/
def mkWord (it : RItem) : Word :=
  { word := (it.alternatives.head?.getD ⟨none, none⟩).content.getD "",
    start := it.start_time.getD 0,
    end_time := it.end_time.getD 0,
    confidence := (it.alternatives.head?.getD ⟨none, none⟩).confidence.getD 0 }

theorem extract_one_none (it : RItem)
    (h : (it.type == some "word" && !it.alternatives.isEmpty) = false) :
    extract_one it = none := by
  unfold extract_one
  by_cases ht : it.type = some "word"
  · rw [if_pos ht]
    cases halt : it.alternatives with
    | nil => rfl
    | cons alt alts => simp [ht, halt] at h
  · rw [if_neg ht]

theorem extract_one_some (it : RItem)
    (h : (it.type == some "word" && !it.alternatives.isEmpty) = true) :
    extract_one it = some (mkWord it) := by
  unfold extract_one mkWord
  simp only [Bool.and_eq_true, beq_iff_eq, Bool.not_eq_true'] at h
  rw [if_pos h.1]
  cases halt : it.alternatives with
  | nil => rw [halt] at h; simp at h
  | cons alt alts => simp [halt]

theorem extract_words_some (items : List RItem) :
    extract_words (some items) =
      if items.filterMap extract_one = [] then none
      else some (items.filterMap extract_one) := rfl

theorem extract_words_filterMap (items : List RItem) :
    items.filterMap extract_one =
      (items.filter (fun it => it.type == some "word" &&
        !it.alternatives.isEmpty)).map mkWord := by
  induction items with
  | nil => rfl
  | cons it rest ih =>
    rw [List.filter_cons]
    by_cases hb : (it.type == some "word" && !it.alternatives.isEmpty) = true
    · rw [List.filterMap_cons_some (extract_one_some it hb),
        if_pos hb, List.map_cons, ih]
    · rw [List.filterMap_cons_none (extract_one_none it (by simpa using hb)),
        if_neg hb, ih]

theorem extract_words_getD (items : List RItem) :
    (extract_words (some items)).getD [] =
      (items.filter (fun it => it.type == some "word" &&
        !it.alternatives.isEmpty)).map mkWord := by
  rw [extract_words_some]
  by_cases h : items.filterMap extract_one = []
  · rw [if_pos h, ← extract_words_filterMap, h]
    rfl
  · rw [if_neg h, ← extract_words_filterMap]
    rfl

/-- C6: word extraction keeps exactly the items of type `"word"` with a
non-empty alternatives list (each mapped to its word dict, in order,
never failing), and when nothing is kept the result is `None` — never the
empty list; a payload without a `results` attribute also yields `None`. -/
theorem claim_C6_extract_words (items : List RItem) :
    extract_words none = none ∧
    (extract_words (some items)).getD [] =
      (items.filter (fun it => it.type == some "word" &&
        !it.alternatives.isEmpty)).map mkWord ∧
    ((items.filter (fun it => it.type == some "word" &&
        !it.alternatives.isEmpty)) = [] ↔ extract_words (some items) = none) ∧
    extract_words (some items) ≠ some [] := by
  refine ⟨rfl, extract_words_getD items, ⟨fun hf => ?_, fun hn => ?_⟩, ?_⟩
  · have hfm : items.filterMap extract_one = [] := by
      rw [extract_words_filterMap, hf]
      rfl
    rw [extract_words_some, if_pos hfm]
  · rw [extract_words_some] at hn
    by_cases h : items.filterMap extract_one = []
    · rw [extract_words_filterMap] at h
      simpa using h
    · rw [if_neg h] at hn
      exact Option.noConfusion hn
  · rw [extract_words_some]
    by_cases h : items.filterMap extract_one = []
    · rw [if_pos h]
      simp
    · rw [if_neg h]
      simp [h]

/-- Job qualification test of the usage loop: a parsed creation timestamp
on or after the first instant of the current UTC month. -/
def job_qualifies (month_start : ℚ) : Option (Option ℚ) → Bool
  | some (some t) => decide (month_start ≤ t)
  | _ => false

theorem usage_step_missing (ms dur : ℚ) (acc : ℕ × ℚ) :
    usage_step ms dur acc none = acc := rfl

theorem usage_step_unparsed (ms dur : ℚ) (acc : ℕ × ℚ) :
    usage_step ms dur acc (some none) = acc := rfl

theorem usage_step_parsed (ms dur : ℚ) (acc : ℕ × ℚ) (t : ℚ) :
    usage_step ms dur acc (some (some t)) =
      if ms ≤ t then (acc.1 + 1, acc.2 + dur) else acc := rfl

theorem job_qualifies_missing (ms : ℚ) : job_qualifies ms none = false := rfl

theorem job_qualifies_unparsed (ms : ℚ) :
    job_qualifies ms (some none) = false := rfl

theorem job_qualifies_parsed (ms t : ℚ) :
    job_qualifies ms (some (some t)) = decide (ms ≤ t) := rfl

theorem get_usage_foldl (month_start : ℚ) (jobs : List UsageJob) :
    ∀ (n : ℕ) (d : ℚ),
      jobs.foldl (fun acc job =>
        usage_step month_start (job.duration.getD 0) acc job.created_at)
        (n, d) =
      (n + (jobs.filter (fun j => job_qualifies month_start j.created_at)).length,
       d + ((jobs.filter (fun j => job_qualifies month_start j.created_at)).map
         (fun j => j.duration.getD 0)).sum) := by
  induction jobs with
  | nil => intro n d; simp
  | cons j rest ih =>
    intro n d
    simp only [List.foldl_cons, List.filter_cons]
    cases hc : j.created_at with
    | none =>
      rw [usage_step_missing, job_qualifies_missing, ih]
      simp
    | some c =>
      cases c with
      | none =>
        rw [usage_step_unparsed, job_qualifies_unparsed, ih]
        simp
      | some t =>
        rw [usage_step_parsed, job_qualifies_parsed]
        by_cases hle : month_start ≤ t
        · rw [if_pos hle, ih, decide_eq_true hle]
          simp [Prod.ext_iff]
          refine ⟨by omega, by ring⟩
        · rw [if_neg hle, ih, decide_eq_false hle]
          simp

/-- C9: the usage report counts, and sums the durations of, exactly the
jobs whose parsed creation timestamp is on or after the first instant of
the current UTC month; earlier jobs and jobs with a missing or
unparseable `created_at` contribute nothing. -/
theorem claim_C9_usage (jobs : List UsageJob) (month_start : ℚ) :
    (get_usage jobs month_start).1 =
      (jobs.filter (fun j => job_qualifies month_start j.created_at)).length ∧
    (get_usage jobs month_start).2 =
      ((jobs.filter (fun j => job_qualifies month_start j.created_at)).map
        (fun j => j.duration.getD 0)).sum := by
  unfold get_usage
  rw [get_usage_foldl]
  simp

/-- C7: a remote-layer HTTP failure always yields a Failure outcome whose
message is the status-code classification: 429 rate-limited, 403
quota-or-auth, 401 invalid credentials, 400 bad request with the parsed
provider detail, anything else the generic remote error carrying the code
and the error text. -/
theorem claim_C7_http_error_classes (env : Env) (path acc lang : String)
    (dur : Option ℚ) (dz : Bool) (st : ℕ) (dj : Option String) (es : String)
    (hex : env.file_exists path = true)
    (hrem : env.remote path = RemoteReply.httpErr st dj es) :
    (transcribe env path acc lang dur dz).status = "error" ∧
    (transcribe env path acc lang dur dz).error_message =
      some (handle_http_error st dj es) ∧
    handle_http_error 429 dj es =
      "Rate limited by Speechmatics API. Please wait and try again." ∧
    handle_http_error 403 dj es =
      "API quota exceeded or invalid API key. Check your Speechmatics account." ∧
    handle_http_error 401 dj es = "Invalid Speechmatics API key." ∧
    (∀ detail, handle_http_error 400 (some detail) es =
      "Invalid request: " ++ detail) ∧
    (handle_http_error 400 none es = "Invalid request: " ++ es) ∧
    (st ∉ ([429, 403, 401, 400] : List ℕ) →
      handle_http_error st dj es =
        "API error (" ++ toString st ++ "): " ++ es) := by
  have htr : transcribe env path acc lang dur dz =
      transcribe_reply path acc lang dur dz (env.remote path) := by
    unfold transcribe
    rw [if_neg (by rw [hex]; simp)]
  refine ⟨?_, ?_, rfl, rfl, rfl, fun detail => rfl, rfl, fun hst => ?_⟩
  · rw [htr, hrem]
    rfl
  · rw [htr, hrem]
    rfl
  · simp only [List.mem_cons, List.not_mem_nil] at hst
    push_neg at hst
    obtain ⟨h1, h2, h3, h4⟩ := hst
    unfold handle_http_error
    rw [if_neg h1, if_neg h2, if_neg h3, if_neg h4.1]

/-- Environment for the C7 witness: every remote call fails with HTTP 500. -/
def env500 : Env :=
  { file_exists := fun _ => true,
    remote := fun _ => RemoteReply.httpErr 500 none "boom" }

/-- C7 witness: concrete instance at status 500. -/
theorem claim_C7_http_error_classes_witness :
    (transcribe env500 "f.mp3" "standard" "en" none false).status = "error" ∧
    (transcribe env500 "f.mp3" "standard" "en" none false).error_message =
      some (handle_http_error 500 none "boom") ∧
    handle_http_error 429 none "boom" =
      "Rate limited by Speechmatics API. Please wait and try again." ∧
    handle_http_error 403 none "boom" =
      "API quota exceeded or invalid API key. Check your Speechmatics account." ∧
    handle_http_error 401 none "boom" = "Invalid Speechmatics API key." ∧
    (∀ detail, handle_http_error 400 (some detail) "boom" =
      "Invalid request: " ++ detail) ∧
    (handle_http_error 400 none "boom" = "Invalid request: " ++ "boom") ∧
    ((500 : ℕ) ∉ ([429, 403, 401, 400] : List ℕ) →
      handle_http_error 500 none "boom" =
        "API error (" ++ toString (500 : ℕ) ++ "): " ++ "boom") :=
  claim_C7_http_error_classes env500 "f.mp3" "standard" "en" none false
    500 none "boom" rfl rfl

theorem run_completion_order_aux (tasks : List TranscriptionResult) :
    ∀ (order : List ℕ) (slots : List (Option TranscriptionResult)),
      slots.length = tasks.length →
      ∀ j, (order.foldl (fun s i => s.set i tasks[i]?) slots)[j]? =
        if j ∈ order ∧ j < tasks.length then some tasks[j]? else slots[j]? := by
  intro order
  induction order with
  | nil =>
    intro slots hlen j
    simp
  | cons i rest ih =>
    intro slots hlen j
    simp only [List.foldl_cons]
    rw [ih (slots.set i tasks[i]?) (by rw [List.length_set]; exact hlen) j]
    by_cases hj : j ∈ rest ∧ j < tasks.length
    · rw [if_pos hj, if_pos ⟨List.mem_cons_of_mem i hj.1, hj.2⟩]
    · rw [if_neg hj, List.getElem?_set]
      by_cases hij : i = j
      · subst hij
        by_cases hlt : i < tasks.length
        · rw [if_pos rfl, if_pos (by rw [hlen]; exact hlt),
            if_pos ⟨List.mem_cons_self i rest, hlt⟩]
        · rw [if_pos rfl, if_neg (by rw [hlen]; exact hlt),
            if_neg (fun hcon => hlt hcon.2),
            List.getElem?_eq_none (by rw [hlen]; omega)]
      · rw [if_neg hij,
          if_neg (fun hcon => by
            rcases List.mem_cons.mp hcon.1 with he | hmem
            · exact hij he.symm
            · exact hj ⟨hmem, hcon.2⟩)]

/-- Completion in any order fills every slot with its own task's result:
the slot list read out afterwards is the task list in task order. -/
theorem run_completion_order_perm (tasks : List TranscriptionResult)
    (order : List ℕ) (hperm : order.Perm (List.range tasks.length)) :
    run_completion_order tasks order = tasks.map some := by
  apply List.ext_getElem?
  intro j
  unfold run_completion_order
  rw [run_completion_order_aux tasks order (List.replicate tasks.length none)
    (by rw [List.length_replicate]) j, List.getElem?_map]
  by_cases hj : j < tasks.length
  · have hmem : j ∈ order := hperm.mem_iff.mpr (List.mem_range.mpr hj)
    rw [if_pos ⟨hmem, hj⟩, List.getElem?_eq_getElem hj]
    rfl
  · have hmem : j ∉ order :=
      fun hm => hj (List.mem_range.mp (hperm.mem_iff.mp hm))
    rw [if_neg (fun hcon => hmem hcon.1), List.getElem?_replicate, if_neg hj,
      List.getElem?_eq_none (by omega)]
    rfl

/-- C2: for every non-empty input list, the batch returns exactly one
result per input item, the `i`-th result is the transcription of the
`i`-th input item, and for every completion order (any permutation of the
task indices) the slot-filling model of `asyncio.gather` yields exactly
that same list — order is input order, not completion order. -/
theorem claim_C2_batch_order (env : Env) (files : List (String × ℚ))
    (acc lang : String) (dz : Bool) (hne : files ≠ []) :
    (transcribe_batch env files acc lang dz).length = files.length ∧
    (∀ i (h : i < files.length),
      (transcribe_batch env files acc lang dz)[i]? =
        some (transcribe env (files.get ⟨i, h⟩).1 acc lang
          (some (files.get ⟨i, h⟩).2) dz)) ∧
    (∀ order, order.Perm (List.range files.length) →
      run_completion_order (transcribe_batch env files acc lang dz) order =
        (transcribe_batch env files acc lang dz).map some) := by
  refine ⟨by simp [transcribe_batch], fun i h => ?_, fun order hp => ?_⟩
  · unfold transcribe_batch
    rw [List.getElem?_map, List.getElem?_eq_getElem h]
    rfl
  · apply run_completion_order_perm
    rw [show (transcribe_batch env files acc lang dz).length = files.length
      from by simp [transcribe_batch]]
    exact hp

/-- Environment for the C2 witness: the remote call always succeeds. -/
def envOk : Env :=
  { file_exists := fun _ => true,
    remote := fun _ => RemoteReply.ok "job-1" (some "hi") none }

/-- C2 witness: concrete batch of one file. -/
theorem claim_C2_batch_order_witness :
    (transcribe_batch envOk [("a.mp3", 1)] "standard" "en" false).length =
      [("a.mp3", (1 : ℚ))].length ∧
    (∀ i (h : i < [("a.mp3", (1 : ℚ))].length),
      (transcribe_batch envOk [("a.mp3", 1)] "standard" "en" false)[i]? =
        some (transcribe envOk ([("a.mp3", (1 : ℚ))].get ⟨i, h⟩).1 "standard"
          "en" (some ([("a.mp3", (1 : ℚ))].get ⟨i, h⟩).2) false)) ∧
    (∀ order, order.Perm (List.range [("a.mp3", (1 : ℚ))].length) →
      run_completion_order
          (transcribe_batch envOk [("a.mp3", 1)] "standard" "en" false) order =
        (transcribe_batch envOk [("a.mp3", 1)] "standard" "en" false).map some) :=
  claim_C2_batch_order envOk [("a.mp3", 1)] "standard" "en" false (by simp)

/-- Environment for the C8 scenario: the remote call raises for `f2` only. -/
def env3 : Env :=
  { file_exists := fun _ => true,
    remote := fun p =>
      if p = "f2" then RemoteReply.exn "boom"
      else RemoteReply.ok "job" (some "ok") none }

/-- Input batch for the C8 scenario. -/
def files3 : List (String × ℚ) := [("f1", 1), ("f2", 2), ("f3", 3)]

/-- C8: the batch always returns one typed outcome per item in position
(no exception crosses an item boundary — an exception from the remote
call becomes a Failure outcome in that item's slot), each position
depends only on its own item, and in the concrete 3-item scenario where
only item 2's remote call raises, the statuses are
success/error/success with the raised message on item 2. -/
theorem claim_C8_failure_isolation (env : Env) (files : List (String × ℚ))
    (acc lang : String) (dz : Bool) :
    ((transcribe_batch env files acc lang dz).length = files.length ∧
      ∀ i (h : i < files.length),
        (transcribe_batch env files acc lang dz)[i]? =
          some (transcribe env (files.get ⟨i, h⟩).1 acc lang
            (some (files.get ⟨i, h⟩).2) dz)) ∧
    (∀ path d m, env.file_exists path = true →
      env.remote path = RemoteReply.exn m →
      transcribe env path acc lang d dz =
        { file_path := path, transcript := "", words := none,
          duration_seconds := d.getD 0, accuracy := acc, diarization := dz,
          status := "error", error_message := some m }) ∧
    ((transcribe_batch env3 files3 "standard" "en" false).map
        (fun r => (r.status, r.error_message)) =
      [("success", none), ("error", some "boom"), ("success", none)]) := by
  refine ⟨⟨by simp [transcribe_batch], fun i h => ?_⟩,
    fun path d m hex hrem => ?_, ?_⟩
  · unfold transcribe_batch
    rw [List.getElem?_map, List.getElem?_eq_getElem h]
    rfl
  · unfold transcribe
    rw [if_neg (by rw [hex]; simp), hrem]
    rfl
  · decide

/-- C8 witness: the failing item's slot in the concrete scenario is the
transcription of that item alone. -/
theorem claim_C8_failure_isolation_witness :
    (transcribe_batch env3 files3 "standard" "en" false)[1]? =
      some (transcribe env3 (files3.get ⟨1, by decide⟩).1 "standard" "en"
        (some (files3.get ⟨1, by decide⟩).2) false) :=
  (claim_C8_failure_isolation env3 files3 "standard" "en" false).1.2 1
    (by decide)
